import Mathlib

/-!
Verification of the PyRTL `wire.py` signal layer against its specification.

This file gives a shallow embedding of the data model and operations of
`src/pyrtl/wire.py` (WireVector construction and naming, operator-driven
netlist construction, constant encoding, register staging) and proves the
specification claims against that embedding.  Python integers are modelled
as `Int`/`Nat`; Python exceptions are modelled with `Except Err`; the
mutable working block is modelled by explicit state passing.  Where a
Python built-in is used by the source (string `split`, `int` parsing,
`range` slicing, arithmetic shifts), the embedding reproduces the
documented CPython semantics for the inputs the source can produce.
-/

set_option autoImplicit false

deriving instance DecidableEq for Except

namespace PyrtlWire

/-- The kinds of exception the source can raise, tagged by raise site.
`pyrtlError*` tags model `PyrtlError`, `internalError*` models
`PyrtlInternalError`, and `indexError`/`valueError`/`typeError` model the
Python built-in exceptions that can escape uncaught. -/
inductive Err where
  | badBitwidthType
  | nonPositiveBitwidth
  | clockName
  | negConstNeedsWidth
  | insufficientBits
  | negativeConstInternal
  | constTooBig
  | boolBitwidth
  | badConstType
  | verilogWithWidth
  | verilogFormat
  | verilogSigned
  | lenUndefined
  | getitemNoBitwidth
  | emptySelection
  | indexError
  | valueError
  | typeError
  | extendShrinks
  | ilshiftOnInput
  | iorOnInput
  | ilshiftOnConst
  | iorOnConst
  | nextNotSetter
  | nextSetTwice
  | condNeedsWidth
  deriving DecidableEq, Repr

/-- Python `v >> k` on integers is an arithmetic (floor) shift.  For a
nonnegative shift count `k` this is floor division by `2 ^ k`, which for the
positive divisor `2 ^ k` coincides with Euclidean division `Int.ediv` (the
`/` of `Int`).  Python raises `ValueError` on a negative shift count; the
source only reaches negative counts on inputs that already fail, and this
model is used with nonnegative counts in every theorem. -/
def pyShr (v : Int) (k : Int) : Int :=
  v / (2 ^ k.toNat)

/-- Python `v & ((1 << w) - 1)` on an arbitrary integer `v` masks to the low
`w` bits, i.e. reduces `v` modulo `2 ^ w` into `[0, 2 ^ w)`; this is
`Int.emod`, the `%` of `Int`. -/
def pyMaskLow (v : Int) (w : Int) : Int :=
  v % (2 ^ w.toNat)

/-- Number of binary digits of a positive natural number (length of its
binary expansion). -/
def binDigits : Nat → Nat
  | 0 => 0
  | n + 1 => binDigits ((n + 1) / 2) + 1

/-- Python `len(bin(num)) - 2` for `num ≥ 0`: `bin(0) = "0b0"` has one digit
after the `0b` prefix, so zero maps to 1, and a positive number maps to the
length of its binary expansion. -/
def pyBinLen (n : Nat) : Nat :=
  if n = 0 then 1 else binDigits n

/-- Embedding of `_validate_const_int` (`wire.py` lines 601-614): validate an
integer constant and return the `(magnitude, bitwidth)` pair.  A nonnegative
value keeps its magnitude, inferring `len(bin(num)) - 2` when no bitwidth is
given; a negative value requires an explicit bitwidth, must satisfy
`(val >> bitwidth-1) == -1`, and is stored as its two's-complement mask
`val & ((1 << bitwidth) - 1)`. -/
def _validate_const_int (val : Int) (bitwidth : Option Int) : Except Err (Int × Int) :=
  if 0 ≤ val then
    match bitwidth with
    | none => .ok (val, (pyBinLen val.toNat : Nat))
    | some w => .ok (val, w)
  else
    match bitwidth with
    | none => .error .negConstNeedsWidth
    | some w =>
      if pyShr val (w - 1) ≠ -1 then .error .insufficientBits
      else .ok (pyMaskLow val w, w)

/-- Reading a magnitude `m` stored at width `w` back as a two's-complement
integer: magnitudes at or above `2 ^ (w-1)` denote `m - 2 ^ w`. -/
def twosComplementDecode (m : Int) (w : Nat) : Int :=
  if 2 ^ (w - 1) ≤ m then m - 2 ^ w else m

/-- The apostrophe character that separates width from digits in a
verilog-style literal. -/
def quoteChar : Char := Char.ofNat 39

/-- Python `str.split` on the apostrophe separator: cut the character list at
every occurrence of the separator, keeping empty pieces. -/
def splitOnQuote : List Char → List (List Char)
  | [] => [[]]
  | c :: rest =>
    if c = quoteChar then [] :: splitOnQuote rest
    else
      match splitOnQuote rest with
      | [] => [[c]]
      | h :: t => (c :: h) :: t

/-- Value of a digit character for CPython `int` parsing (decimal digits and
lowercase letters; the source lowercases its input before parsing). -/
def digitVal (c : Char) : Option Nat :=
  if '0' ≤ c ∧ c ≤ '9' then some (c.toNat - '0'.toNat)
  else if 'a' ≤ c ∧ c ≤ 'z' then some (c.toNat - 'a'.toNat + 10)
  else none

/-- Accumulate the value of a digit string in the given base; fails on any
character that is not a digit of that base. -/
def pyDigitsAux (base : Nat) : List Char → Nat → Option Nat
  | [], acc => some acc
  | c :: rest, acc =>
    match digitVal c with
    | some d => if d < base then pyDigitsAux base rest (acc * base + d) else none
    | none => none

/-- CPython underscore rule for numeric literals passed to `int`: separator
underscores may appear only between digits (not leading, not trailing, not
doubled). -/
def noBadUnderscore : List Char → Bool
  | [] => true
  | [c] => c ≠ '_'
  | c :: d :: rest =>
    if c = '_' ∧ d = '_' then false else noBadUnderscore (d :: rest)

/-- CPython `int(s, base)` semantics for the character strings the source can
produce: an optional sign followed by a nonempty digit string, with separator
underscores permitted between digits.  CPython's additional tolerance for
surrounding whitespace and `0x`-style prefixes never yields a successful
parse on the inputs the source feeds this function (digit characters cut
from a verilog literal), so it is not modelled. -/
def pyInt (s : List Char) (base : Nat) : Option Int :=
  let core : List Char → Option Nat := fun ds =>
    match ds with
    | [] => none
    | c :: _ =>
      if c = '_' ∨ ds.getLast? = some '_' ∨ ¬ noBadUnderscore ds then none
      else pyDigitsAux base (ds.filter (fun ch => ch ≠ '_')) 0
  match s with
  | [] => none
  | c :: rest =>
    if c = '-' then (core rest).map (fun n => -(n : Int))
    else if c = '+' then (core rest).map (fun n => (n : Int))
    else (core s).map (fun n => (n : Int))

/-- Base letters accepted in a verilog-style literal (`wire.py` line 618):
b, o, d, h, x mapping to bases 2, 8, 10, 16, 16. -/
def basesVal (c : Char) : Option Nat :=
  if c = 'b' then some 2
  else if c = 'o' then some 8
  else if c = 'd' then some 10
  else if c = 'h' then some 16
  else if c = 'x' then some 16
  else none

/-- Embedding of `_convert_verilog_str` (`wire.py` lines 617-647): parse a
verilog-style literal string into `(magnitude, bitwidth)`.  A separately
supplied bitwidth is rejected; a leading `-` is noted and stripped; the
lowercased string is split on the apostrophe into exactly two pieces; the
first piece parses as a decimal width; a leading `s` on the digits piece is
rejected as unsupported; an optional base letter selects the base; separator
underscores are removed; the digits parse in that base (a `ValueError` or
`IndexError` in this region reports uniformly as a format error); finally a
noted `-` with a nonzero value checks `num >> bitwidth-1` and stores
`(1 << bitwidth) - num`.  Python raises an uncaught `ValueError` when
`bitwidth - 1` is negative at the shift; this model reports
`insufficientBits` there, an error in either account. -/
def _convert_verilog_str (val : List Char) (bitwidth : Option Int) : Except Err (Int × Int) :=
  if bitwidth.isSome then .error .verilogWithWidth
  else
    let neg := val.head? = some '-'
    let val1 := if neg then val.tail else val
    match splitOnQuote (val1.map Char.toLower) with
    | [ws, sval] =>
      match pyInt ws 10 with
      | none => .error .verilogFormat
      | some bw =>
        match sval with
        | [] => .error .verilogFormat
        | c :: _ =>
          if c = 's' then .error .verilogSigned
          else
            let p := match basesVal c with
              | some b => (b, sval.tail)
              | none => (10, sval)
            match pyInt (p.2.filter (fun ch => ch ≠ '_')) p.1 with
            | none => .error .verilogFormat
            | some num =>
              if neg ∧ num ≠ 0 then
                if pyShr num (bw - 1) ≠ 0 then .error .insufficientBits
                else .ok ((2 ^ bw.toNat : Int) - num, bw)
              else .ok (num, bw)
    | _ => .error .verilogFormat

/-- Embedding of `_convert_bool` (`wire.py` lines 592-598): a boolean constant
has magnitude 0 or 1 and must have bitwidth 1 (defaulted when unset). -/
def _convert_bool (bool_val : Bool) (bitwidth : Option Int) : Except Err (Int × Int) :=
  let num : Int := if bool_val then 1 else 0
  match bitwidth with
  | none => .ok (num, 1)
  | some w => if w ≠ 1 then .error .boolBitwidth else .ok (num, w)

/-- The runtime type of a value passed to the Const constructor: Python
dispatches on bool before int (a bool is also integral), then string; any
other type is rejected. -/
inductive ConstVal where
  | bool (b : Bool)
  | int (i : Int)
  | str (s : List Char)
  | other
  deriving DecidableEq

/-- Embedding of `_gen_val_and_bitwidth` (`wire.py` lines 580-589): dispatch
on the runtime type of the literal. -/
def _gen_val_and_bitwidth (val : ConstVal) (bitwidth : Option Int) : Except Err (Int × Int) :=
  match val with
  | .bool b => _convert_bool b bitwidth
  | .int i => _validate_const_int i bitwidth
  | .str s => _convert_verilog_str s bitwidth
  | .other => .error .badConstType

/-- A wire name: either a user-given string, an autogenerated temporary name
(`tmp<n>` from the temp indexer), or an autogenerated constant name
(`const_<n>_<val>` from the const indexer).  The generated names are modelled
by their counter value; they are nonempty and never the reserved clock
names. -/
inductive WName where
  | given (s : List Char)
  | tmp (n : Nat)
  | constN (n : Nat) (v : ConstVal)
  deriving DecidableEq

/-- An operation node: operator tag, optional static parameter (the selected
position list of a select node), ordered input wire identities, ordered
output wire identities.  Mirrors `LogicNet` as used by `wire.py`. -/
structure LogicNet where
  op : Char
  op_param : Option (List Nat)
  args : List Nat
  dests : List Nat
  deriving DecidableEq

/-- The working block's mutable state: the name registry and wire set
(owned by core.Block, modelled from the spec), the node list, and the
identity/naming counters.  `fresh` allocates wire identities (modelling
Python object identity); the two name counters model the module-level
`_wvIndexer` and `_constIndexer`. -/
structure Block where
  wirevector_by_name : List (WName × Nat) := []
  wirevector_set : List Nat := []
  nets : List LogicNet := []
  fresh : Nat := 0
  tmpCounter : Nat := 0
  constCounter : Nat := 0
  deriving DecidableEq

/-- The empty working block. -/
def Block.empty : Block := {}

/-- Modelled from the spec: `core.Block.add_wirevector` is not under `src/`;
spec section 6 requires the graph to provide `register_signal(signal)`, which
records the signal in the wire set and installs it in the name registry under
its name. -/
def add_wirevector (blk : Block) (nm : WName) (wid : Nat) : Block :=
  { blk with
    wirevector_by_name := (nm, wid) :: blk.wirevector_by_name,
    wirevector_set := wid :: blk.wirevector_set }

/-- Modelled from the spec: `core.Block.add_net` is not under `src/`; spec
section 6 requires the graph to provide `add_operation_node(node)`, which
appends the fully-formed node. -/
def add_net (blk : Block) (net : LogicNet) : Block :=
  { blk with nets := blk.nets ++ [net] }

/-- Python `dict.pop(key, None)` on the name registry (`wire.py` line 125):
remove the entry under the old name, if any. -/
def popName (l : List (WName × Nat)) : Option WName → List (WName × Nat)
  | none => l
  | some k => l.filter (fun p => p.1 ≠ k)

/-- Whether a name is one of the reserved clock names, compared
case-insensitively (`wire.py` line 45). -/
def isClockName (s : List Char) : Bool :=
  s.map Char.toLower == "clk".data || s.map Char.toLower == "clock".data

/-- The name argument given to a wire constructor: a plain string (empty
requests autogeneration), or the string built for a constant from the const
indexer and the literal (always nonempty and never a clock name). -/
inductive PyName where
  | str (s : List Char)
  | constStr (k : Nat) (v : ConstVal)
  deriving DecidableEq

/-- Embedding of `next_tempvar_name` (`wire.py` lines 35-47): an empty name
draws a fresh temporary name from the indexer; the reserved clock names are
rejected; any other name is kept.  The caller-location suffix of debug mode
is not modelled (it only decorates the generated string). -/
def next_tempvar_name (blk : Block) : PyName → Except Err (WName × Block)
  | .str s =>
    if s = [] then .ok (.tmp blk.tmpCounter, { blk with tmpCounter := blk.tmpCounter + 1 })
    else if isClockName s then .error .clockName
    else .ok (.given s, blk)
  | .constStr k v => .ok (.constN k v, blk)

/-- The bitwidth argument given to a wire constructor: unset, an integer, or
a value of some non-integral type. -/
inductive BWArg where
  | unset
  | int (i : Int)
  | nonInt
  deriving DecidableEq

/-- Embedding of `WireVector._validate_bitwidth` (`wire.py` lines 136-143):
a set bitwidth must be integral and strictly positive; the validated result
is stored on the wire. -/
def _validate_bitwidth : BWArg → Except Err (Option Nat)
  | .unset => .ok none
  | .nonInt => .error .badBitwidthType
  | .int i => if i ≤ 0 then .error .nonPositiveBitwidth else .ok (some i.toNat)

/-- A wire handle: its identity and its (possibly still unset) bitwidth. -/
structure WV where
  wid : Nat
  bitwidth : Option Nat
  deriving DecidableEq

/-- Embedding of the `name` property setter (`wire.py` lines 121-127): pop
the old name from the registry, then register the wire under the new name
via `add_wirevector`.  The string type check always passes here because
every name this model produces is a name value. -/
def name_setter (blk : Block) (oldName : Option WName) (value : WName) (wid : Nat) : Block :=
  add_wirevector { blk with wirevector_by_name := popName blk.wirevector_by_name oldName }
    value wid

/-- Embedding of `WireVector.__init__` (`wire.py` lines 93-113): resolve the
name (possibly autogenerating one), register the wire in the block under that
name, and only then validate the bitwidth.  An invalid bitwidth therefore
raises after the registries were already updated, which the returned block
reflects. -/
def WireVector_init (blk : Block) (name : PyName) (bitwidth : BWArg) :
    (Except Err WV) × Block :=
  match next_tempvar_name blk name with
  | .error e => (.error e, blk)
  | .ok (nm, blk1) =>
    let wid := blk1.fresh
    let blk2 := { blk1 with fresh := blk1.fresh + 1 }
    let blk3 := name_setter blk2 none nm wid
    match _validate_bitwidth bitwidth with
    | .error e => (.error e, blk3)
    | .ok obw => (.ok ⟨wid, obw⟩, blk3)

/-- Embedding of `Const.__init__` (`wire.py` lines 539-563): validate the
bitwidth argument, encode the literal, re-check that the magnitude is
nonnegative (an internal-consistency failure otherwise) and fits the final
bitwidth, then construct the underlying wire under a generated constant
name.  Returns the wire together with its recorded value. -/
def Const_init (blk : Block) (val : ConstVal) (bitwidth : BWArg) :
    (Except Err (WV × Int)) × Block :=
  match _validate_bitwidth bitwidth with
  | .error e => (.error e, blk)
  | .ok obw =>
    match _gen_val_and_bitwidth val (obw.map (fun n => (n : Int))) with
    | .error e => (.error e, blk)
    | .ok (num, bw) =>
      if num < 0 then (.error .negativeConstInternal, blk)
      else if pyShr num bw ≠ 0 then (.error .constTooBig, blk)
      else
        let nm := PyName.constStr blk.constCounter val
        let blk1 := { blk with constCounter := blk.constCounter + 1 }
        match WireVector_init blk1 nm (.int bw) with
        | (.error e, blk2) => (.error e, blk2)
        | (.ok w, blk2) => (.ok (w, num), blk2)

/-- Embedding of `WireVector.__len__` (`wire.py` lines 395-409): the bitwidth
when set, an error when the bitwidth is still undefined. -/
def __len__ (w : WV) : Except Err Nat :=
  match w.bitwidth with
  | none => .error .lenUndefined
  | some n => .ok n

/-- Modelled from the spec: `corecircuits.match_bitwidth` is not under
`src/`; spec section 6 requires `align_widths(a, b)` to widen the pair of
signals to the common width, which per the claims and spec section 4.2 is
the maximum of the two widths.  Only the resulting operand widths are
tracked (the result width computation of an operator depends on nothing
else); widening a signal with no width fails when its length is taken. -/
def match_bitwidth (a b : WV) : Except Err (WV × WV) :=
  match a.bitwidth, b.bitwidth with
  | some m, some n =>
    .ok ({ a with bitwidth := some (max m n) }, { b with bitwidth := some (max m n) })
  | _, _ => .error .lenUndefined

/-- Embedding of `WireVector._two_var_op` (`wire.py` lines 179-202): align
the operands to a common width, compute the result width by operator class
(arithmetic gains a carry bit, multiplication doubles, comparisons collapse
to one bit, anything else keeps the common width), then build the result
wire and the operation node. -/
def _two_var_op (blk : Block) (a0 b0 : WV) (op : Char) : (Except Err WV) × Block :=
  match match_bitwidth a0 b0 with
  | .error e => (.error e, blk)
  | .ok (a, b) =>
    match __len__ a with
    | .error e => (.error e, blk)
    | .ok l =>
      let resultlen :=
        if op = '+' ∨ op = '-' then l + 1
        else if op = '*' then l * 2
        else if op = '<' ∨ op = '>' ∨ op = '=' then 1
        else l
      match WireVector_init blk (.str []) (.int (resultlen : Int)) with
      | (.error e, blk1) => (.error e, blk1)
      | (.ok s, blk1) => (.ok s, add_net blk1 ⟨op, none, [a.wid, b.wid], [s.wid]⟩)

/-- Embedding of `WireVector.__invert__` (`wire.py` lines 340-351): build a
same-width result wire and a one-input invert node. -/
def __invert__ (blk : Block) (self : WV) : (Except Err WV) × Block :=
  match __len__ self with
  | .error e => (.error e, blk)
  | .ok l =>
    match WireVector_init blk (.str []) (.int (l : Int)) with
    | (.error e, blk1) => (.error e, blk1)
    | (.ok outwire, blk1) => (.ok outwire, add_net blk1 ⟨'~', none, [self.wid], [outwire.wid]⟩)

/-- Embedding of `WireVector.__add__`. -/
def __add__ (blk : Block) (a b : WV) : (Except Err WV) × Block := _two_var_op blk a b '+'

/-- Embedding of `WireVector.__sub__`. -/
def __sub__ (blk : Block) (a b : WV) : (Except Err WV) × Block := _two_var_op blk a b '-'

/-- Embedding of `WireVector.__mul__`. -/
def __mul__ (blk : Block) (a b : WV) : (Except Err WV) × Block := _two_var_op blk a b '*'

/-- Embedding of `WireVector.__and__`. -/
def __and__ (blk : Block) (a b : WV) : (Except Err WV) × Block := _two_var_op blk a b '&'

/-- Embedding of `WireVector.__or__`. -/
def __or__ (blk : Block) (a b : WV) : (Except Err WV) × Block := _two_var_op blk a b '|'

/-- Embedding of `WireVector.__xor__`. -/
def __xor__ (blk : Block) (a b : WV) : (Except Err WV) × Block := _two_var_op blk a b '^'

/-- Embedding of `WireVector.nand`. -/
def nand (blk : Block) (a b : WV) : (Except Err WV) × Block := _two_var_op blk a b 'n'

/-- Embedding of `WireVector.__lt__`. -/
def __lt__ (blk : Block) (a b : WV) : (Except Err WV) × Block := _two_var_op blk a b '<'

/-- Embedding of `WireVector.__gt__`. -/
def __gt__ (blk : Block) (a b : WV) : (Except Err WV) × Block := _two_var_op blk a b '>'

/-- Embedding of `WireVector.__eq__`. -/
def __eq__ (blk : Block) (a b : WV) : (Except Err WV) × Block := _two_var_op blk a b '='

/-- Embedding of `WireVector.__le__`: the inversion of the greater-than
comparator. -/
def __le__ (blk : Block) (a b : WV) : (Except Err WV) × Block :=
  match _two_var_op blk a b '>' with
  | (.error e, blk1) => (.error e, blk1)
  | (.ok r, blk1) => __invert__ blk1 r

/-- Embedding of `WireVector.__ge__`: the inversion of the less-than
comparator. -/
def __ge__ (blk : Block) (a b : WV) : (Except Err WV) × Block :=
  match _two_var_op blk a b '<' with
  | (.error e, blk1) => (.error e, blk1)
  | (.ok r, blk1) => __invert__ blk1 r

/-- Embedding of `WireVector.__ne__`: the inversion of the equality
comparator. -/
def __ne__ (blk : Block) (a b : WV) : (Except Err WV) × Block :=
  match _two_var_op blk a b '=' with
  | (.error e, blk1) => (.error e, blk1)
  | (.ok r, blk1) => __invert__ blk1 r

/-- An index expression passed to the subscript operator: an integer or a
slice with optional start, stop, and step. -/
inductive PyItem where
  | idx (i : Int)
  | slice (start stop step : Option Int)
  deriving DecidableEq

/-- CPython `range(W)[i]` for an integer index: a negative index counts from
the upper end; a resolved index outside `[0, W)` raises `IndexError`. -/
def pyRangeGet (W : Nat) (i : Int) : Except Err Nat :=
  let j := if i < 0 then i + W else i
  if 0 ≤ j ∧ j < W then .ok j.toNat else .error .indexError

/-- CPython `range(W)[start:stop:step]` as the list of selected positions,
following the `PySlice_AdjustIndices` algorithm: a zero step raises
`ValueError`; missing bounds default by the sign of the step; negative
bounds count from the upper end and are then clamped; the count of selected
positions is computed from the adjusted bounds; every selected position lies
in `[0, W)`. -/
def pySliceSelect (W : Nat) (ostart ostop ostep : Option Int) : Except Err (List Nat) :=
  if ostep = some 0 then .error .valueError
  else
    let step := ostep.getD 1
    let len : Int := W
    if 0 < step then
      let start := match ostart with
        | none => 0
        | some s => if s < 0 then (if s + len < 0 then 0 else s + len) else (if len ≤ s then len else s)
      let stop := match ostop with
        | none => len
        | some s => if s < 0 then (if s + len < 0 then 0 else s + len) else (if len ≤ s then len else s)
      let count := if start < stop then ((stop - start - 1) / step + 1).toNat else 0
      .ok ((List.range count).map (fun (k : Nat) => (start + step * (k : Int)).toNat))
    else
      let start := match ostart with
        | none => len - 1
        | some s => if s < 0 then (if s + len < 0 then -1 else s + len) else (if len ≤ s then len - 1 else s)
      let stop := match ostop with
        | none => -1
        | some s => if s < 0 then (if s + len < 0 then -1 else s + len) else (if len ≤ s then len - 1 else s)
      let count := if stop < start then ((start - stop - 1) / (-step) + 1).toNat else 0
      .ok ((List.range count).map (fun (k : Nat) => (start + step * (k : Int)).toNat))

/-- Embedding of `WireVector.__getitem__` (`wire.py` lines 353-373): a wire
with no bitwidth cannot be subscripted; the item is resolved against
`range(bitwidth)`; an empty selection is an error; otherwise a result wire
whose width is the number of selected positions is built together with a
select node parameterized by the selected position list. -/
def __getitem__ (blk : Block) (self : WV) (item : PyItem) : (Except Err WV) × Block :=
  match self.bitwidth with
  | none => (.error .getitemNoBitwidth, blk)
  | some W =>
    let selectednums : Except Err (List Nat) :=
      match item with
      | .idx i => (pyRangeGet W i).map (fun p => [p])
      | .slice a b c => pySliceSelect W a b c
    match selectednums with
    | .error e => (.error e, blk)
    | .ok sel =>
      if sel = [] then (.error .emptySelection, blk)
      else
        match WireVector_init blk (.str []) (.int (sel.length : Int)) with
        | (.error e, blk1) => (.error e, blk1)
        | (.ok outwire, blk1) =>
          (.ok outwire, add_net blk1 ⟨'s', some sel, [self.wid], [outwire.wid]⟩)

/-- The extension bit passed to `_extend_with_bit`: the sign-source wire for
sign extension, or the plain integer 0 for zero extension. -/
inductive ExtBit where
  | wire (w : WV)
  | num (i : Int)
  deriving DecidableEq

/-- Modelled from the spec: `corecircuits.concat` is not under `src/`; spec
section 6 requires `concatenate(high, low) -> Signal` to produce the signal
whose upper bits are the first argument and lower bits the second, so its
width is the sum of the two widths, built as a concatenation node. -/
def concat (blk : Block) (high low : WV) : (Except Err WV) × Block :=
  match high.bitwidth, low.bitwidth with
  | some hw, some lw =>
    match WireVector_init blk (.str []) (.int ((hw + lw : Nat) : Int)) with
    | (.error e, blk1) => (.error e, blk1)
    | (.ok outwire, blk1) =>
      (.ok outwire, add_net blk1 ⟨'c', none, [high.wid, low.wid], [outwire.wid]⟩)
  | _, _ => (.error .lenUndefined, blk)

/-- Embedding of `WireVector._extend_with_bit` (`wire.py` lines 464-483):
compute the width delta; a zero delta returns the original wire with no
state change; a negative delta is an error; a positive delta materializes
the extension bit (a width-1 constant when it is the integer 0), replicates
it into an extension field via a select node, and concatenates the field
above the original wire.  A wire with no bitwidth makes the Python
subtraction a `TypeError`. -/
def _extend_with_bit (blk : Block) (self : WV) (bitwidth : Int) (extbit : ExtBit) :
    (Except Err WV) × Block :=
  match self.bitwidth with
  | none => (.error .typeError, blk)
  | some sw =>
    let numext : Int := bitwidth - sw
    if numext = 0 then (.ok self, blk)
    else if numext < 0 then (.error .extendShrinks, blk)
    else
      let getExt : (Except Err WV) × Block :=
        match extbit with
        | .wire w => (.ok w, blk)
        | .num i =>
          match Const_init blk (.int i) (.int 1) with
          | (.error e, blk1) => (.error e, blk1)
          | (.ok (w, _), blk1) => (.ok w, blk1)
      match getExt with
      | (.error e, blk1) => (.error e, blk1)
      | (.ok extw, blk1) =>
        match WireVector_init blk1 (.str []) (.int numext) with
        | (.error e, blk2) => (.error e, blk2)
        | (.ok extvector, blk2) =>
          let blk3 := add_net blk2
            ⟨'s', some (List.replicate numext.toNat 0), [extw.wid], [extvector.wid]⟩
          concat blk3 extvector self

/-- Embedding of `WireVector.sign_extended` (`wire.py` lines 442-451): the
most significant bit is selected first (Python evaluates the argument
`self[-1]` before the call, creating its select node unconditionally), then
`_extend_with_bit` runs with that wire as the extension bit. -/
def sign_extended (blk : Block) (self : WV) (bitwidth : Int) : (Except Err WV) × Block :=
  match __getitem__ blk self (.idx (-1)) with
  | (.error e, blk1) => (.error e, blk1)
  | (.ok msb, blk1) => _extend_with_bit blk1 self bitwidth (.wire msb)

/-- Embedding of `WireVector.zero_extended` (`wire.py` lines 453-462):
`_extend_with_bit` with the integer 0 as the extension bit. -/
def zero_extended (blk : Block) (self : WV) (bitwidth : Int) : (Except Err WV) × Block :=
  _extend_with_bit blk self bitwidth (.num 0)

/-- Embedding of `Input.__ilshift__` (`wire.py` lines 499-505): directed
assignment into an Input always raises; nothing is built. -/
def Input_ilshift (blk : Block) (_self _other : WV) : (Except Err WV) × Block :=
  (.error .ilshiftOnInput, blk)

/-- Embedding of `Input.__ior__` (`wire.py` lines 507-513): conditional
assignment into an Input always raises; nothing is built. -/
def Input_ior (blk : Block) (_self _other : WV) : (Except Err WV) × Block :=
  (.error .iorOnInput, blk)

/-- Embedding of `Const.__ilshift__` (`wire.py` lines 565-569): directed
assignment into a Const always raises; nothing is built. -/
def Const_ilshift (blk : Block) (_self _other : WV) : (Except Err WV) × Block :=
  (.error .ilshiftOnConst, blk)

/-- Embedding of `Const.__ior__` (`wire.py` lines 571-577): conditional
assignment into a Const always raises; nothing is built. -/
def Const_ior (blk : Block) (_self _other : WV) : (Except Err WV) × Block :=
  (.error .iorOnConst, blk)

/-- The state of one Register: its wire identity, its (possibly unset)
bitwidth, and `reg_in`, the pending drive recorded by an unconditional
commit (`None` until then). -/
structure RegState where
  wid : Nat
  bitwidth : Option Nat
  reg_in : Option Nat
  deriving DecidableEq

/-- The value bound onto the `next` property: the staging token produced by
the staging channels (carrying the coerced right-hand wire and the
conditional-context flag), or any other value. -/
inductive NextArg where
  | nextSetter (rhs : Nat) (is_conditional : Bool)
  | notASetter
  deriving DecidableEq

/-- Embedding of `Register._next_ilshift` (`wire.py` lines 720-725): adopt
the right-hand width when the register's width is unset, and produce an
unconditional staging token; no register state or node is touched beyond
the width. -/
def _next_ilshift (reg : RegState) (rhs : Nat) (rhsWidth : Nat) : RegState × NextArg :=
  match reg.bitwidth with
  | none => ({ reg with bitwidth := some rhsWidth }, .nextSetter rhs false)
  | some _ => (reg, .nextSetter rhs false)

/-- Embedding of `Register._next_ior` (`wire.py` lines 727-733): conditional
staging requires an already-fixed bitwidth and produces a conditional
staging token. -/
def _next_ior (reg : RegState) (rhs : Nat) : Except Err NextArg :=
  match reg.bitwidth with
  | none => .error .condNeedsWidth
  | some _ => .ok (.nextSetter rhs true)

/-- The state a register commit acts on: the register, the conditional
builder's collected (target, value) pairs, and the block's node list. -/
structure RegCtx where
  reg : RegState
  deferred : List (Nat × Nat)
  nets : List LogicNet
  deriving DecidableEq

/-- Modelled from the spec: `conditional._build` is not under `src/`; spec
sections 4.4 and 6 have the conditional-assignment builder collect the
guarded candidate value at commit time and emit the equivalent node only
later, once all guards for the cycle are known — so at commit time it
records the pair and neither sets the pending drive nor appends a node. -/
def conditional_build (ctx : RegCtx) (rhs : Nat) : RegCtx :=
  { ctx with deferred := ctx.deferred ++ [(ctx.reg.wid, rhs)] }

/-- Embedding of `Register._build` (`wire.py` lines 747-752): record the
pending drive in `reg_in` and append the register operation node. -/
def Register_build (ctx : RegCtx) (next : Nat) : RegCtx :=
  { ctx with
    reg := { ctx.reg with reg_in := some next },
    nets := ctx.nets ++ [⟨'r', none, [next], [ctx.reg.wid]⟩] }

/-- Embedding of the `next` property setter (`wire.py` lines 735-745): reject
anything that is not a staging token; reject a commit when the pending drive
is already recorded; route a conditional token to the conditional builder
and an unconditional token to `Register._build`. -/
def next_setter (ctx : RegCtx) (nextsetter : NextArg) : (Except Err Unit) × RegCtx :=
  match nextsetter with
  | .notASetter => (.error .nextNotSetter, ctx)
  | .nextSetter rhs is_conditional =>
    if ctx.reg.reg_in ≠ none then (.error .nextSetTwice, ctx)
    else if is_conditional then (.ok (), conditional_build ctx rhs)
    else (.ok (), Register_build ctx rhs)

/-- The verilog-style literal string whose characters are 8, apostrophe,
h, F, F. -/
def lit_8hFF : List Char := "8".data ++ [quoteChar] ++ "hFF".data

/-- The verilog-style literal string whose characters are 4, apostrophe,
d, minus, 3. -/
def lit_4dm3 : List Char := "4".data ++ [quoteChar] ++ "d-3".data

/-- The verilog-style literal string whose characters are minus, 4,
apostrophe, d, 3. -/
def lit_m4d3 : List Char := "-4".data ++ [quoteChar] ++ "d3".data

/-- The bitwidth of the wire produced by an operator, when it produced
one. -/
def resWidth (r : (Except Err WV) × Block) : Option Nat :=
  match r.1 with
  | .ok w => w.bitwidth
  | .error _ => none

/-! Theorems.  Helper lemmas come first, then one theorem per claim
(with its witness or counterexample where required). -/

/-- Constructing an anonymous wire of a positive bitwidth succeeds, draws a
temporary name and a fresh identity, and registers the wire. -/
theorem WireVector_init_tmp (blk : Block) (k : Nat) (hk : 0 < k) :
    WireVector_init blk (.str []) (.int (k : Int)) =
      (.ok ⟨blk.fresh, some k⟩,
       name_setter { blk with tmpCounter := blk.tmpCounter + 1, fresh := blk.fresh + 1 }
         none (.tmp blk.tmpCounter) blk.fresh) := by
  have h1 : ¬((k : Int) ≤ 0) := by
    omega
  simp [WireVector_init, next_tempvar_name, _validate_bitwidth, h1]

/-- Claim C1, counterexample: the literal whose characters are
4-apostrophe-d-minus-3 does not encode to magnitude 13; the parser accepts
the sign inside the digits and returns the pair (-3, 4), and constructing a
Const from that literal then raises the internal-consistency error on the
negative magnitude rather than succeeding. -/
theorem C1_counterexample :
    _convert_verilog_str lit_4dm3 none = .ok (-3, 4) ∧
    _convert_verilog_str lit_4dm3 none ≠ .ok (13, 4) ∧
    (Const_init Block.empty (.str lit_4dm3) .unset).1 = .error .negativeConstInternal := by
  decide

/-- Claim C1 (amended): encoding the literal 8-apostrophe-hFF with no
separately supplied width returns magnitude 255 and width 8 and the Const
construction succeeds with that value; the explicit negative form puts the
minus before the width, so minus-4-apostrophe-d3 encodes to magnitude
16 - 3 = 13 with width 4, while 4-apostrophe-d-minus-3 parses to the raw
value -3 and is rejected by the Const constructor. -/
theorem C1_verilog_literal_encoding :
    _convert_verilog_str lit_8hFF none = .ok (255, 8) ∧
    (Const_init Block.empty (.str lit_8hFF) .unset).1 = .ok (⟨0, some 8⟩, 255) ∧
    _convert_verilog_str lit_m4d3 none = .ok (13, 4) ∧
    _convert_verilog_str lit_4dm3 none = .ok (-3, 4) := by
  decide

/-- Claim C4, counterexample: encoding the integer constant 0 with no width
supplied does not yield width 0. -/
theorem C4_counterexample : _validate_const_int 0 none ≠ .ok (0, 0) := by
  decide

/-- Claim C4 (amended): encoding the integer constant 0 with no width
supplied infers the width as the digit count of Python bin(0), which is 1,
not the bit-length 0. -/
theorem C4_zero_const_width_one : _validate_const_int 0 none = .ok (0, 1) := by
  decide

/-- Claim C7: directed and conditional assignment into an Input and into a
Const always raise a protocol-violation error, and the block is returned
unchanged, so no wire node is created. -/
theorem C7_input_const_assignment_rejected (blk : Block) (s o : WV) :
    Input_ilshift blk s o = (.error .ilshiftOnInput, blk) ∧
    Input_ior blk s o = (.error .iorOnInput, blk) ∧
    Const_ilshift blk s o = (.error .ilshiftOnConst, blk) ∧
    Const_ior blk s o = (.error .iorOnConst, blk) :=
  ⟨rfl, rfl, rfl, rfl⟩

/-- Claim C10: a wire whose bitwidth is still unset reports an error from
both len and the subscript operator, leaving the block unchanged; neither
treats the unset width as zero. -/
theorem C10_undefined_width_errors (blk : Block) (w : WV) (item : PyItem)
    (h : w.bitwidth = none) :
    __len__ w = .error .lenUndefined ∧
    __getitem__ blk w item = (.error .getitemNoBitwidth, blk) := by
  constructor
  · simp [__len__, h]
  · simp [__getitem__, h]

/-- Witness for claim C10 at a concrete wire with unset width. -/
theorem C10_witness :
    __len__ ⟨0, none⟩ = .error .lenUndefined ∧
    __getitem__ Block.empty ⟨0, none⟩ (.idx 0) = (.error .getitemNoBitwidth, Block.empty) :=
  C10_undefined_width_errors Block.empty ⟨0, none⟩ (.idx 0) rfl

/-- Claim C2, counterexample: constructing a wire named x with the malformed
bitwidth 0 raises, but the registries are not left unchanged — the name x is
already registered when the error is raised. -/
theorem C2_counterexample :
    (WireVector_init Block.empty (.str "x".data) (.int 0)).1 = .error .nonPositiveBitwidth ∧
    (WireVector_init Block.empty (.str "x".data) (.int 0)).2.wirevector_by_name =
      [(.given "x".data, 0)] ∧
    (WireVector_init Block.empty (.str "x".data) (.int 0)).2 ≠ Block.empty := by
  decide

/-- Claim C2 (amended): constructing a wire with a valid non-clock name and a
malformed bitwidth raises the validation error, but only after the wire was
registered under its name: bitwidth validation runs after registration, so
the registry retains the new entry. -/
theorem C2_error_leaves_wire_registered (blk : Block) (s : List Char) (bw : BWArg) (e : Err)
    (h1 : s ≠ []) (h2 : isClockName s = false) (h3 : _validate_bitwidth bw = .error e) :
    (WireVector_init blk (.str s) bw).1 = .error e ∧
    (WireVector_init blk (.str s) bw).2.wirevector_by_name =
      (.given s, blk.fresh) :: blk.wirevector_by_name := by
  simp [WireVector_init, next_tempvar_name, h1, h2, h3, name_setter, add_wirevector, popName]

/-- Witness for claim C2 at the concrete name x and bitwidth 0. -/
theorem C2_witness :
    (WireVector_init Block.empty (.str "x".data) (.int 0)).1 = .error .nonPositiveBitwidth ∧
    (WireVector_init Block.empty (.str "x".data) (.int 0)).2.wirevector_by_name =
      [(.given "x".data, 0)] :=
  C2_error_leaves_wire_registered Block.empty "x".data (.int 0) .nonPositiveBitwidth
    (by decide) (by decide) (by decide)

/-- Claim C6, counterexample: two successive conditional commits on the same
register both succeed — the first conditional commit delegates to the
deferred conditional builder without recording the pending drive, so the
second commit does not raise the protocol-violation error the claim
requires. -/
theorem C6_counterexample :
    (next_setter ⟨⟨0, some 4, none⟩, [], []⟩ (.nextSetter 5 true)).1 = .ok () ∧
    (next_setter (next_setter ⟨⟨0, some 4, none⟩, [], []⟩ (.nextSetter 5 true)).2
      (.nextSetter 6 true)).1 = .ok () := by
  decide

/-- Claim C6 (amended): binding a non-token to the next property raises; any
commit attempt on a register whose pending drive is already recorded raises;
an unconditional commit succeeds, records the pending drive, and makes every
later commit raise; a conditional commit succeeds by delegating to the
deferred conditional builder without recording the pending drive, so it does
not arm the once-only check. -/
theorem C6_commit_protocol (ctx : RegCtx) (rhs rhs2 : Nat) (b : Bool) :
    next_setter ctx .notASetter = (.error .nextNotSetter, ctx) ∧
    (∀ x, ctx.reg.reg_in = some x →
      next_setter ctx (.nextSetter rhs b) = (.error .nextSetTwice, ctx)) ∧
    (ctx.reg.reg_in = none →
      (next_setter ctx (.nextSetter rhs false)).1 = .ok () ∧
      (next_setter ctx (.nextSetter rhs false)).2.reg.reg_in = some rhs ∧
      (next_setter (next_setter ctx (.nextSetter rhs false)).2 (.nextSetter rhs2 b)).1 =
        .error .nextSetTwice) ∧
    (ctx.reg.reg_in = none →
      next_setter ctx (.nextSetter rhs true) = (.ok (), conditional_build ctx rhs) ∧
      (next_setter ctx (.nextSetter rhs true)).2.reg.reg_in = none) := by
  refine ⟨rfl, ?_, ?_, ?_⟩
  · intro x hx
    simp [next_setter, hx]
  · intro hnone
    simp [next_setter, hnone, Register_build]
  · intro hnone
    simp [next_setter, hnone, conditional_build]

/-- Witness for claim C6 at a concrete register of width 4. -/
theorem C6_witness :
    next_setter ⟨⟨0, some 4, none⟩, [], []⟩ .notASetter =
      (.error .nextNotSetter, ⟨⟨0, some 4, none⟩, [], []⟩) ∧
    (next_setter ⟨⟨0, some 4, none⟩, [], []⟩ (.nextSetter 5 false)).2.reg.reg_in = some 5 ∧
    (next_setter (next_setter ⟨⟨0, some 4, none⟩, [], []⟩ (.nextSetter 5 false)).2
      (.nextSetter 6 true)).1 = .error .nextSetTwice ∧
    (next_setter ⟨⟨0, some 4, none⟩, [], []⟩ (.nextSetter 5 true)).2.reg.reg_in = none := by
  obtain ⟨h1, _, h3, h4⟩ := C6_commit_protocol ⟨⟨0, some 4, none⟩, [], []⟩ 5 6 true
  exact ⟨h1, (h3 rfl).2.1, (h3 rfl).2.2, (h4 rfl).2⟩

/-- Claim C8, counterexample: sign extension to the current width 2 returns
the original signal, but it is not node-free — selecting the sign bit
creates a select node before the zero width delta is noticed. -/
theorem C8_counterexample :
    (sign_extended Block.empty ⟨0, some 2⟩ 2).1 = .ok ⟨0, some 2⟩ ∧
    (sign_extended Block.empty ⟨0, some 2⟩ 2).2.nets = [⟨'s', some [1], [0], [0]⟩] := by
  decide

/-- Resolving an integer index against the range of positions follows the
ordinary sequence rule: an index in bounds resolves directly, a negative
index within reach counts from the upper end, everything else raises. -/
theorem pyRangeGet_spec (W : Nat) (i : Int) :
    pyRangeGet W i =
      if 0 ≤ i ∧ i < (W : Int) then .ok i.toNat
      else if -(W : Int) ≤ i ∧ i < 0 then .ok (i + W).toNat
      else .error .indexError := by
  simp only [pyRangeGet]
  by_cases hneg : i < 0
  · simp only [if_pos hneg]
    by_cases hin : 0 ≤ i + (W : Int) ∧ i + (W : Int) < (W : Int)
    · rw [if_pos hin, if_neg (by omega), if_pos (by omega)]
    · rw [if_neg hin, if_neg (by omega), if_neg (by omega)]
  · simp only [if_neg hneg]
    by_cases hin : 0 ≤ i ∧ i < (W : Int)
    · rw [if_pos hin, if_pos hin]
    · rw [if_neg hin, if_neg hin, if_neg (by omega)]

/-- Subscripting with the index -1 selects the most significant position,
building a one-bit wire and its select node. -/
theorem getitem_msb (blk : Block) (w : WV) (W : Nat)
    (hW : w.bitwidth = some W) (h0 : 0 < W) :
    __getitem__ blk w (.idx (-1)) =
      (.ok ⟨blk.fresh, some 1⟩,
       add_net (name_setter { blk with tmpCounter := blk.tmpCounter + 1, fresh := blk.fresh + 1 }
         none (.tmp blk.tmpCounter) blk.fresh)
         ⟨'s', some [W - 1], [w.wid], [blk.fresh]⟩) := by
  have hj : pyRangeGet W (-1) = .ok (W - 1) := by
    rw [pyRangeGet_spec]
    rw [if_neg (by omega), if_pos (by constructor <;> omega)]
    exact congrArg Except.ok (by omega)
  have h1 := WireVector_init_tmp blk 1 (by omega)
  norm_num at h1
  simp [__getitem__, hW, hj, Except.map, h1]

/-- Claim C8 (amended): with a target width equal to the current width,
zero extension is a true identity (the original signal, no state change),
while sign extension returns the original signal but first materializes one
select node for the sign bit; with a smaller target width both raise the
shrink error (sign extension again creating the select node first), so
extension never shrinks a signal. -/
theorem C8_extension_behavior (blk : Block) (w : WV) (W : Nat) (t : Int)
    (hW : w.bitwidth = some W) (h0 : 0 < W) :
    zero_extended blk w (W : Int) = (.ok w, blk) ∧
    (sign_extended blk w (W : Int)).1 = .ok w ∧
    (sign_extended blk w (W : Int)).2.nets =
      blk.nets ++ [⟨'s', some [W - 1], [w.wid], [blk.fresh]⟩] ∧
    (t < (W : Int) → zero_extended blk w t = (.error .extendShrinks, blk)) ∧
    (t < (W : Int) → (sign_extended blk w t).1 = .error .extendShrinks) := by
  have heq : ∀ (blk1 : Block) (eb : ExtBit),
      _extend_with_bit blk1 w (W : Int) eb = (.ok w, blk1) := by
    intro blk1 eb
    simp [_extend_with_bit, hW]
  have hlt : ∀ (blk1 : Block) (eb : ExtBit), t < (W : Int) →
      _extend_with_bit blk1 w t eb = (.error .extendShrinks, blk1) := by
    intro blk1 eb ht
    simp only [_extend_with_bit, hW]
    rw [if_neg (by omega), if_pos (by omega)]
  have hsign : ∀ u : Int, sign_extended blk w u =
      _extend_with_bit
        (add_net
          (name_setter { blk with tmpCounter := blk.tmpCounter + 1, fresh := blk.fresh + 1 }
            none (.tmp blk.tmpCounter) blk.fresh)
          ⟨'s', some [W - 1], [w.wid], [blk.fresh]⟩)
        w u (.wire ⟨blk.fresh, some 1⟩) := by
    intro u
    unfold sign_extended
    rw [getitem_msb blk w W hW h0]
  refine ⟨heq blk _, ?_, ?_, fun ht => hlt blk _ ht, fun ht => ?_⟩
  · rw [hsign, heq]
  · rw [hsign, heq]
    simp [add_net, name_setter, add_wirevector]
  · rw [hsign, hlt _ _ ht]

/-- Witness for claim C8 at a concrete two-bit wire and target widths 2
and 1. -/
theorem C8_witness :
    zero_extended Block.empty ⟨0, some 2⟩ 2 = (.ok ⟨0, some 2⟩, Block.empty) ∧
    (sign_extended Block.empty ⟨0, some 2⟩ 2).1 = .ok ⟨0, some 2⟩ ∧
    zero_extended Block.empty ⟨0, some 2⟩ 1 = (.error .extendShrinks, Block.empty) ∧
    (sign_extended Block.empty ⟨0, some 2⟩ 1).1 = .error .extendShrinks := by
  obtain ⟨h1, h2, _, h4, h5⟩ :=
    C8_extension_behavior Block.empty ⟨0, some 2⟩ 2 1 rfl (by decide)
  exact ⟨by simpa using h1, by simpa using h2,
    by simpa using h4 (by decide), by simpa using h5 (by decide)⟩

/-- A two-operand operator on wires of known positive widths aligns them to
the maximum width, builds a result wire whose width is determined by the
operator class, and appends the operation node. -/
theorem two_var_op_spec (blk : Block) (a b : WV) (m n : Nat) (op : Char)
    (ha : a.bitwidth = some m) (hb : b.bitwidth = some n) (hm : 0 < m) :
    _two_var_op blk a b op =
      (.ok ⟨blk.fresh, some (
        if op = '+' ∨ op = '-' then max m n + 1
        else if op = '*' then max m n * 2
        else if op = '<' ∨ op = '>' ∨ op = '=' then 1
        else max m n)⟩,
       add_net
         (name_setter { blk with tmpCounter := blk.tmpCounter + 1, fresh := blk.fresh + 1 }
           none (.tmp blk.tmpCounter) blk.fresh)
         ⟨op, none, [a.wid, b.wid], [blk.fresh]⟩) := by
  have hpos : 0 < (if op = '+' ∨ op = '-' then max m n + 1
      else if op = '*' then max m n * 2
      else if op = '<' ∨ op = '>' ∨ op = '=' then 1
      else max m n) := by
    split_ifs <;> omega
  have hinit := WireVector_init_tmp blk _ hpos
  simp only [_two_var_op, match_bitwidth, ha, hb, __len__, hinit]

/-- Inverting a wire of known positive width builds a result wire of the
same width and the invert node. -/
theorem invert_spec (blk : Block) (w : WV) (l : Nat)
    (hw : w.bitwidth = some l) (hl : 0 < l) :
    __invert__ blk w =
      (.ok ⟨blk.fresh, some l⟩,
       add_net
         (name_setter { blk with tmpCounter := blk.tmpCounter + 1, fresh := blk.fresh + 1 }
           none (.tmp blk.tmpCounter) blk.fresh)
         ⟨'~', none, [w.wid], [blk.fresh]⟩) := by
  have hinit := WireVector_init_tmp blk l hl
  simp only [__invert__, __len__, hw, hinit]

/-- Inverting a one-bit wire yields a one-bit wire. -/
theorem invert_width_one (blk1 : Block) (w1 : WV) (hw : w1.bitwidth = some 1) :
    resWidth (__invert__ blk1 w1) = some 1 := by
  simp [invert_spec blk1 w1 1 hw Nat.one_pos, resWidth]

/-- Claim C3: on two signals of known widths m and n, with the common width
w being the maximum of the two, addition and subtraction produce a result
wire of width w + 1, multiplication of width 2 * w, the bitwise operators
and nand of width w, and every comparison of width 1. -/
theorem C3_operator_result_widths (blk : Block) (a b : WV) (m n : Nat)
    (ha : a.bitwidth = some m) (hb : b.bitwidth = some n) (hm : 0 < m) (_hn : 0 < n) :
    resWidth (__add__ blk a b) = some (max m n + 1) ∧
    resWidth (__sub__ blk a b) = some (max m n + 1) ∧
    resWidth (__mul__ blk a b) = some (2 * max m n) ∧
    resWidth (__and__ blk a b) = some (max m n) ∧
    resWidth (__or__ blk a b) = some (max m n) ∧
    resWidth (__xor__ blk a b) = some (max m n) ∧
    resWidth (nand blk a b) = some (max m n) ∧
    resWidth (__lt__ blk a b) = some 1 ∧
    resWidth (__le__ blk a b) = some 1 ∧
    resWidth (__gt__ blk a b) = some 1 ∧
    resWidth (__ge__ blk a b) = some 1 ∧
    resWidth (__eq__ blk a b) = some 1 ∧
    resWidth (__ne__ blk a b) = some 1 := by
  have hspec := fun op => two_var_op_spec blk a b m n op ha hb hm
  refine ⟨?_, ?_, ?_, ?_, ?_, ?_, ?_, ?_, ?_, ?_, ?_, ?_, ?_⟩
  · simp [__add__, hspec, resWidth]
  · simp [__sub__, hspec, resWidth]
  · simp [__mul__, hspec, resWidth, Nat.mul_comm]
  · simp [__and__, hspec, resWidth]
  · simp [__or__, hspec, resWidth]
  · simp [__xor__, hspec, resWidth]
  · simp [nand, hspec, resWidth]
  · simp [__lt__, hspec, resWidth]
  · simp only [__le__, hspec]
    exact invert_width_one _ _ rfl
  · simp [__gt__, hspec, resWidth]
  · simp only [__ge__, hspec]
    exact invert_width_one _ _ rfl
  · simp [__eq__, hspec, resWidth]
  · simp only [__ne__, hspec]
    exact invert_width_one _ _ rfl

/-- Witness for claim C3 at concrete wires of widths 3 and 5. -/
theorem C3_witness :
    resWidth (__add__ Block.empty ⟨0, some 3⟩ ⟨1, some 5⟩) = some 6 ∧
    resWidth (__mul__ Block.empty ⟨0, some 3⟩ ⟨1, some 5⟩) = some 10 ∧
    resWidth (nand Block.empty ⟨0, some 3⟩ ⟨1, some 5⟩) = some 5 ∧
    resWidth (__le__ Block.empty ⟨0, some 3⟩ ⟨1, some 5⟩) = some 1 := by
  obtain ⟨h1, _, h3, _, _, _, h7, _, h9, _⟩ :=
    C3_operator_result_widths Block.empty ⟨0, some 3⟩ ⟨1, some 5⟩ 3 5 rfl rfl
      (by decide) (by decide)
  exact ⟨by simpa using h1, by simpa using h3, by simpa using h7, h9⟩

/-- Claim C5: for every positive width w, a negative value v in the
two's-complement range of w encodes to magnitude v + 2 ^ w at the same
width, and decoding that magnitude as two's-complement at width w recovers
v; a negative value with no width supplied is rejected, and a negative
value below the two's-complement range of w is rejected. -/
theorem C5_negative_const_twos_complement (w : Nat) (v : Int) (hw : 0 < w) :
    (-(2 ^ (w - 1) : Int) ≤ v → v < 0 →
      _validate_const_int v (some (w : Int)) = .ok (v + 2 ^ w, (w : Int)) ∧
      twosComplementDecode (v + 2 ^ w) w = v) ∧
    (v < 0 → _validate_const_int v none = .error .negConstNeedsWidth) ∧
    (v < -(2 ^ (w - 1) : Int) →
      _validate_const_int v (some (w : Int)) = .error .insufficientBits) := by
  have hd : (0 : Int) < 2 ^ (w - 1) := by positivity
  have hsplit : (2 : Int) ^ w = 2 ^ (w - 1) * 2 := by
    rw [← pow_succ]
    congr 1
    omega
  have htn : ((w : Int) - 1).toNat = w - 1 := by omega
  refine ⟨?_, ?_, ?_⟩
  · intro h1 h2
    have hnotz : ¬ (0 ≤ v) := by omega
    have hshr : pyShr v ((w : Int) - 1) = -1 := by
      unfold pyShr
      rw [htn]
      have hv : v = (v + 2 ^ (w - 1)) + (-1) * 2 ^ (w - 1) := by ring
      rw [hv, Int.add_mul_ediv_right _ _ (by omega : (2 : Int) ^ (w - 1) ≠ 0),
        Int.ediv_eq_zero_of_lt (by omega) (by omega)]
      norm_num
    have hmask : pyMaskLow v (w : Int) = v + 2 ^ w := by
      unfold pyMaskLow
      rw [show ((w : Int)).toNat = w by omega]
      have e1 : (v + 2 ^ w) % 2 ^ w = v % 2 ^ w := by
        rw [show v + 2 ^ w = v + 2 ^ w * 1 by ring, Int.add_mul_emod_self_left]
      have e2 : (v + 2 ^ w) % 2 ^ w = v + 2 ^ w :=
        Int.emod_eq_of_lt (by omega) (by omega)
      omega
    constructor
    · simp [_validate_const_int, hnotz, hshr, hmask]
    · unfold twosComplementDecode
      rw [if_pos (by omega)]
      ring
  · intro h2
    simp [_validate_const_int, show ¬ (0 ≤ v) by omega]
  · intro h3
    have hnotz : ¬ (0 ≤ v) := by omega
    have hne : pyShr v ((w : Int) - 1) ≠ -1 := by
      unfold pyShr
      rw [htn]
      intro hcontra
      have h0 := Int.ediv_add_emod v (2 ^ (w - 1))
      have hr : 0 ≤ v % 2 ^ (w - 1) := Int.emod_nonneg v (by omega)
      rw [hcontra] at h0
      omega
    simp [_validate_const_int, hnotz, hne]

/-- Subscripting with an integer index that resolves to a position builds a
one-bit wire and its select node at that position. -/
theorem getitem_idx_ok (blk : Block) (w : WV) (W : Nat) (h : w.bitwidth = some W)
    (i : Int) (p : Nat) (hp : pyRangeGet W i = .ok p) :
    __getitem__ blk w (.idx i) =
      (.ok ⟨blk.fresh, some 1⟩,
       add_net
         (name_setter { blk with tmpCounter := blk.tmpCounter + 1, fresh := blk.fresh + 1 }
           none (.tmp blk.tmpCounter) blk.fresh)
         ⟨'s', some [p], [w.wid], [blk.fresh]⟩) := by
  have h1 := WireVector_init_tmp blk 1 (by omega)
  norm_num at h1
  simp [__getitem__, h, hp, Except.map, h1]

/-- ranges of positions selected by the basic two-bound slice: when the
upper bound is within the width, the selected positions are the interval
from the lower to the upper bound, of length upper minus lower. -/
theorem pySliceSelect_basic (W i j : Nat) (hj : j ≤ W) :
    pySliceSelect W (some (i : Int)) (some (j : Int)) none =
      .ok ((List.range (j - i)).map (fun k => i + k)) := by
  unfold pySliceSelect
  rw [if_neg (by simp)]
  simp only [Option.getD_none, Option.getD_some]
  rw [if_pos (by omega : (0 : Int) < 1)]
  rw [if_neg (by omega : ¬ ((i : Int) < 0)), if_neg (by omega : ¬ ((j : Int) < 0))]
  have hstop : (if (W : Int) ≤ (j : Int) then (W : Int) else (j : Int)) = (j : Int) := by
    split_ifs <;> omega
  rw [hstop]
  by_cases hiW : (W : Int) ≤ (i : Int)
  · rw [if_pos hiW]
    rw [if_neg (by omega : ¬ ((W : Int) < (j : Int))), show j - i = 0 by omega]
    rfl
  · rw [if_neg hiW]
    have hcount :
        (if (i : Int) < (j : Int) then (((j : Int) - (i : Int) - 1) / 1 + 1).toNat else 0) =
          j - i := by
      split_ifs with hlt
      · rw [Int.ediv_one]
        omega
      · omega
    rw [hcount]
    refine congrArg Except.ok (List.map_congr_left ?_)
    intro k _
    omega

/-- Claim C9: subscripting a wire of width W resolves the item against the
range of W positions with ordinary sequence semantics — an in-range index
selects its position, a negative index within reach counts from the upper
end, any other index raises; a slice selects the positions computed by the
sequence slicing rule, raising when that selection is empty and otherwise
building a wire whose width is the number of selected positions (the basic
two-bound slice selecting exactly the interval between the bounds). -/
theorem C9_getitem_selection (blk : Block) (w : WV) (W : Nat) (h : w.bitwidth = some W) :
    (∀ i : Int, 0 ≤ i → i < (W : Int) →
      __getitem__ blk w (.idx i) =
        (.ok ⟨blk.fresh, some 1⟩,
         add_net
           (name_setter { blk with tmpCounter := blk.tmpCounter + 1, fresh := blk.fresh + 1 }
             none (.tmp blk.tmpCounter) blk.fresh)
           ⟨'s', some [i.toNat], [w.wid], [blk.fresh]⟩)) ∧
    (∀ i : Int, -(W : Int) ≤ i → i < 0 →
      __getitem__ blk w (.idx i) =
        (.ok ⟨blk.fresh, some 1⟩,
         add_net
           (name_setter { blk with tmpCounter := blk.tmpCounter + 1, fresh := blk.fresh + 1 }
             none (.tmp blk.tmpCounter) blk.fresh)
           ⟨'s', some [(i + W).toNat], [w.wid], [blk.fresh]⟩)) ∧
    (∀ i : Int, i < -(W : Int) ∨ (W : Int) ≤ i →
      __getitem__ blk w (.idx i) = (.error .indexError, blk)) ∧
    (∀ a b c : Option Int, ∀ sel : List Nat, pySliceSelect W a b c = .ok sel →
      (sel = [] → __getitem__ blk w (.slice a b c) = (.error .emptySelection, blk)) ∧
      (sel ≠ [] →
        (__getitem__ blk w (.slice a b c)).1 = .ok ⟨blk.fresh, some sel.length⟩ ∧
        (__getitem__ blk w (.slice a b c)).2.nets =
          blk.nets ++ [⟨'s', some sel, [w.wid], [blk.fresh]⟩])) ∧
    (∀ i j : Nat, j ≤ W →
      pySliceSelect W (some (i : Int)) (some (j : Int)) none =
        .ok ((List.range (j - i)).map (fun k => i + k))) := by
  refine ⟨?_, ?_, ?_, ?_, fun i j hj => pySliceSelect_basic W i j hj⟩
  · intro i hi1 hi2
    refine getitem_idx_ok blk w W h i i.toNat ?_
    rw [pyRangeGet_spec, if_pos ⟨hi1, hi2⟩]
  · intro i hi1 hi2
    refine getitem_idx_ok blk w W h i (i + W).toNat ?_
    rw [pyRangeGet_spec, if_neg (by omega), if_pos ⟨hi1, hi2⟩]
  · intro i hi
    have hp : pyRangeGet W i = .error .indexError := by
      rw [pyRangeGet_spec, if_neg (by omega), if_neg (by omega)]
    simp [__getitem__, h, hp, Except.map]
  · intro a b c sel hsel
    constructor
    · intro hemp
      subst hemp
      simp [__getitem__, h, hsel]
    · intro hne
      have hinit := WireVector_init_tmp blk sel.length (List.length_pos.mpr hne)
      simp [__getitem__, h, hsel, hne, hinit, add_net, name_setter, add_wirevector]

/-- Witness for claim C9 at a concrete wire of width 4. -/
theorem C9_witness :
    (__getitem__ Block.empty ⟨7, some 4⟩ (.idx (-2))).1 = .ok ⟨0, some 1⟩ ∧
    (__getitem__ Block.empty ⟨7, some 4⟩ (.idx (-2))).2.nets = [⟨'s', some [2], [7], [0]⟩] ∧
    (__getitem__ Block.empty ⟨7, some 4⟩ (.slice (some 1) (some 3) none)).1 =
      .ok ⟨0, some 2⟩ ∧
    __getitem__ Block.empty ⟨7, some 4⟩ (.slice (some 2) (some 2) none) =
      (.error .emptySelection, Block.empty) ∧
    __getitem__ Block.empty ⟨7, some 4⟩ (.idx 4) = (.error .indexError, Block.empty) := by
  obtain ⟨_, h2, h3, h4, h5⟩ := C9_getitem_selection Block.empty ⟨7, some 4⟩ 4 rfl
  have hn := h2 (-2) (by norm_num) (by norm_num)
  have hs13 := h4 (some 1) (some 3) none [1, 2] (by decide)
  have hs22 := h4 (some 2) (some 2) none [] (by decide)
  have hout := h3 4 (by norm_num)
  exact ⟨by rw [hn]; rfl, by rw [hn]; rfl,
    by simpa using (hs13.2 (by decide)).1, hs22.1 rfl, hout⟩

/-- Witness for claim C5 at width 4 with the values -3 and -9. -/
theorem C5_witness :
    _validate_const_int (-3) (some 4) = .ok (13, 4) ∧
    twosComplementDecode 13 4 = -3 ∧
    _validate_const_int (-3) none = .error .negConstNeedsWidth ∧
    _validate_const_int (-9) (some 4) = .error .insufficientBits := by
  obtain ⟨ha, hb, _⟩ := C5_negative_const_twos_complement 4 (-3) (by decide)
  obtain ⟨_, _, hc⟩ := C5_negative_const_twos_complement 4 (-9) (by decide)
  obtain ⟨ha1, ha2⟩ := ha (by norm_num) (by norm_num)
  refine ⟨?_, ?_, hb (by norm_num), hc (by norm_num)⟩
  · rw [show ((13 : Int), (4 : Int)) = (-3 + 2 ^ (4 : Nat), ((4 : Nat) : Int)) by norm_num]
    exact ha1
  · rw [show (13 : Int) = -3 + 2 ^ (4 : Nat) by norm_num]
    exact ha2

end PyrtlWire
